import Mathlib

/-!
Verification of the V8 embedding layer of the espians/source repository.

The embedding translates, from the source:
  - the C++ binding (ExceptionString, worker_load, worker_send, worker_send_sync),
  - the Go packages `v8` (lazy-init Worker with registry, LoadModule, SendSync,
    Terminate, recvCb / recvSyncCb, getModuleSource cgo export) and `v8worker`
    (New / Send / recvCb / recvSyncCb),
  - the process-wide registry state machine shared by both Go packages
    (mutex, nextID, once, registry map) as a trace semantics.

Go int32 arithmetic is modelled on Int with explicit two-complement wrapping,
Go maps as association lists, nil function fields as Option, and the opaque V8
engine as explicit behaviour parameters (callback results, compile results),
matching the spec which treats the engine as an external collaborator.
-/

set_option maxHeartbeats 1000000

namespace EspianSource

/-- Go int32 values wrap on overflow; `nextID++` on an `int32` that has
reached its maximum produces the minimum value.  `wrap32 n` is the int32
value obtained from the mathematical integer `n`. -/
def wrap32 (n : Int) : Int := (n + 2147483648) % 4294967296 - 2147483648

/-- A space character, written via its code point. -/
def spaceChar : Char := Char.ofNat 32

namespace Binding

/-- Location metadata that V8 attaches to a captured exception
(`try_catch->Message()` in the C++ binding): resource name, line number,
offending source line, start and end column. -/
structure ExcMessage where
  resourceName : String
  lineNumber : Int
  sourceLine : String
  startColumn : Int
  endColumn : Int

/-- Engine-supplied diagnostic data for one captured failure: the exception
text, the optional location message, and the stack trace (an empty string
when V8 supplies none, matching the `stack_trace.length() > 0` test). -/
structure ExcData where
  exception : String
  message : Option ExcMessage
  stackTrace : String

/-- `ExceptionString` from the C++ binding: renders a captured failure.
With no message it appends just the exception text; otherwise it appends
`resourceName:line`, the source line, `startColumn` spaces followed by
`endColumn - startColumn` caret characters (the two C loops
`for i in [0, start)` and `for i in [start, end)`), then the stack trace
when non-empty, else the exception text again.  Each piece ends with a
newline, mirroring the sequential `out.append` calls. -/
def ExceptionString (e : ExcData) : String :=
  match e.message with
  | none => e.exception ++ "\n"
  | some m =>
    let out := m.resourceName ++ ":" ++ toString m.lineNumber ++ "\n"
    let out := out ++ m.sourceLine ++ "\n"
    let out := out ++ String.mk (List.replicate m.startColumn.toNat spaceChar)
    let out := out ++ String.mk (List.replicate (m.endColumn - m.startColumn).toNat '^') ++ "\n"
    if e.stackTrace.length > 0 then out ++ e.stackTrace ++ "\n"
    else out ++ e.exception ++ "\n"

/-- The exception format as the spec words it (component 4.5): when location
metadata is available, `resource-name:line-number`, then the offending source
line, then a caret underline spanning the reported start to end columns, then
the stack trace, or the exception message again when no stack trace exists;
with no location metadata, just the exception message.  Stated as one
concatenation so that `ExceptionString` can be compared against it. -/
def ExceptionFormatSpec (e : ExcData) : String :=
  match e.message with
  | none => e.exception ++ "\n"
  | some m =>
    m.resourceName ++ ":" ++ toString m.lineNumber ++ "\n" ++
    (m.sourceLine ++ "\n") ++
    (String.mk (List.replicate m.startColumn.toNat spaceChar) ++
      String.mk (List.replicate (m.endColumn - m.startColumn).toNat '^') ++ "\n") ++
    ((if e.stackTrace.length > 0 then e.stackTrace else e.exception) ++ "\n")

/-- Result of invoking the script-side `$recv` callback inside the engine:
it either returns normally or throws, leaving diagnostic data in the
TryCatch. -/
inductive JSCallOutcome where
  | ok
  | threw (e : ExcData)

/-- The part of `worker_s` that `worker_send` touches: the persistent
`recv` callback handle (empty when `$recv` was never called) and the
`last_exception` string. -/
structure SendWorker where
  recv : Option (String → JSCallOutcome)
  last_exception : String

/-- `worker_send` from the C++ binding.  Returns the updated worker, the C
status code, and the number of script-callback invocations performed.  With
no registered callback it stores the fixed diagnostic in `last_exception`
and returns 1 without calling anything; otherwise it calls the callback,
storing the formatted exception and returning 2 when the callback throws. -/
def worker_send (w : SendWorker) (msg : String) : SendWorker × Int × Nat :=
  match w.recv with
  | none =>
    ({ w with last_exception := "v8worker: callback not registered with $recv" }, 1, 0)
  | some f =>
    match f msg with
    | .ok => (w, 0, 1)
    | .threw e => ({ w with last_exception := ExceptionString e }, 2, 1)

/-- A value returned by the script-side `$recvSync` callback, as the C++
binding distinguishes it: either a string or some non-string value
(`response_value->IsString()`). -/
inductive JSVal where
  | str (s : String)
  | nonstr

/-- `worker_send_sync` from the C++ binding.  Always produces a string:
the fixed diagnostic when no `$recvSync` callback is registered, the
callback result when it is a string, and the fixed non-string diagnostic
otherwise. -/
def worker_send_sync (handler : Option (String → JSVal)) (msg : String) : String :=
  match handler with
  | none => "v8worker: callback not registered with $recvSync"
  | some f =>
    match f msg with
    | .str s => s
    | .nonstr => "v8worker: non-string return value"

/-- The engine behaviour of one `worker_load` call, which the C++ binding
branches on: `Script::Compile` produced an empty handle (compile failure
with captured diagnostic), `script->Run()` produced an empty handle
(runtime failure), or both succeeded. -/
inductive LoadBehavior where
  | compileFail (e : ExcData)
  | runFail (e : ExcData)
  | ok

/-- The part of `worker_s` that `worker_load` touches. -/
structure LoadWorker where
  last_exception : String

/-- `worker_load` from the C++ binding: 1 with the formatted exception in
`last_exception` on compile failure, 2 on runtime failure, 0 on success. -/
def worker_load (w : LoadWorker) (b : LoadBehavior) : LoadWorker × Int :=
  match b with
  | .compileFail e => ({ last_exception := ExceptionString e }, 1)
  | .runFail e => ({ last_exception := ExceptionString e }, 2)
  | .ok => (w, 0)

/-- Modelled from the spec: the V8 compile attempt for source `"1+"` under
resource name `"test.js"` (the engine internals behind `Script::Compile`
and its `Message` object are not part of this repository).  Per the spec,
compiling `"1+"` fails with a syntax error located at `test.js` line 1,
with the offending line `"1+"` and the reported column range at its end,
and no stack trace for a compile-time error. -/
def onePlusFailure : ExcData :=
  { exception := "SyntaxError: Unexpected end of input"
    message := some
      { resourceName := "test.js"
        lineNumber := 1
        sourceLine := "1+"
        startColumn := 2
        endColumn := 3 }
    stackTrace := "" }

end Binding

namespace V8

/-- `Worker.SendSync` from the Go `v8` package: takes the string produced
by `worker_send_sync` and returns it with a `nil` error, so the Go caller
always receives a string and never an error. -/
def SendSync (handler : Option (String → Binding.JSVal)) (msg : String) :
    String × Option String :=
  (Binding.worker_send_sync handler msg, none)

/-- Result of one cgo dispatch callback: it returned (recording whether the
host callback was actually invoked), or the process crashed (a nil Go
function value was called, an unrecoverable panic). -/
inductive DispatchResult where
  | ok (invoked : Bool)
  | crash
deriving DecidableEq

/-- Result of one cgo sync dispatch callback: the string handed back to the
script, or a process crash. -/
inductive SyncDispatchResult where
  | str (s : String)
  | crash
deriving DecidableEq

/-- `recvCb` from the Go `v8` package (and identically in part_004): looks
up the instance, and invokes `handleSend` only when it is non-nil. -/
def recvCb (handleSend : Option (String → Unit)) (msg : String) : DispatchResult :=
  match handleSend with
  | none => .ok false
  | some f =>
    let _u := f msg
    .ok true

/-- `recvSyncCb` from the Go `v8` package (and identically in part_004):
returns the fixed diagnostic when `handleSendSync` is nil, else the
callback result. -/
def recvSyncCb (handleSendSync : Option (String → String)) (msg : String) :
    SyncDispatchResult :=
  match handleSendSync with
  | none => .str "v8: Worker.HandleSendSync is nil"
  | some f => .str (f msg)

/-- Result of the `getModuleSource` cgo export: the resolved source is
handed back to C, or the process crashes (the export calls `panic(err)`
when the resolver fails, and a panic escaping a cgo-exported callback
aborts the process). -/
inductive GoCall where
  | ret (s : String)
  | crash
deriving DecidableEq

/-- The `getModuleSource` cgo export from the Go `v8` package: invokes the
instance resolver and panics on error instead of reporting it. -/
def getModuleSource (resolver : String → Except String String) (url : String) : GoCall :=
  match resolver url with
  | .ok s => .ret s
  | .error _ => .crash

/-- Outcome of a module load as seen at the process level. -/
inductive LMOutcome where
  | err (msg : String)
  | ok
  | crash
deriving DecidableEq

/-- Modelled from the spec: `worker_load_module` (its C++ implementation is
absent from src; binding.h only declares it).  Per the spec it resolves the
url to source text through the host resolver — which reaches Go through the
`getModuleSource` export above — compiles the module, resolving each
nested import the same way, and executes it, reporting compile or
execution failure through a nonzero status that the Go side turns into an
error.
`imports` lists the nested imports the module declares and `execError` the
compile/execution failure, both engine-determined. -/
def worker_load_module (resolver : String → Except String String) (url : String)
    (imports : List String) (execError : Option String) : LMOutcome :=
  match getModuleSource resolver url with
  | .crash => .crash
  | .ret _ =>
    if imports.all fun u =>
        match getModuleSource resolver u with
        | .ret _ => true
        | .crash => false then
      match execError with
      | some e => .err e
      | none => .ok
    else .crash

/-- `Worker.LoadModule` from the Go `v8` package.  The second component
counts the locks still held on `w.mutex` at return: the function locks the
mutex, runs `init`, and on the nil-resolver path returns the error without
ever unlocking; on the other path it unlocks before calling into C. -/
def LoadModule (resolver : Option (String → Except String String)) (url : String)
    (imports : List String) (execError : Option String) : LMOutcome × Nat :=
  match resolver with
  | none => (.err "v8: GetModuleSource needs to be set before any methods are called", 1)
  | some res => (worker_load_module res url imports execError, 0)

/-- The configuration and state fields of `Worker` from the Go `v8`
package: the lazily created instance and the user-settable options. -/
structure Worker where
  inst : Option Nat
  enablePrint : Bool
  getModSource : Option (String → Except String String)
  handleSend : Option (String → Option String)
  handleSendSync : Option (String → String)
  resolveModURL : Option (String → String → Except String String)

/-- `Worker.Terminate` from the Go `v8` package: under the handle mutex,
calls `worker_terminate_execution` only when the instance exists.  Returns
the (unchanged) worker and whether the native call happened. -/
def Terminate (w : Worker) : Worker × Bool :=
  match w.inst with
  | none => (w, false)
  | some _ => (w, true)

/-- One operation on the per-handle mutex. -/
inductive MuxEv where
  | lock
  | unlock
deriving DecidableEq

/-- A mutex event sequence is balanced when it performs as many unlocks as
locks before returning. -/
def mutexBalanced (l : List MuxEv) : Bool :=
  l.count .lock == l.count .unlock

/-- Mutex events performed by `Worker.Send`: `Lock` then the deferred
`Unlock` at return. -/
def Send_mux : List MuxEv := [.lock, .unlock]

/-- Mutex events performed by `Worker.SendSync`: `Lock` then the deferred
`Unlock` at return. -/
def SendSync_mux : List MuxEv := [.lock, .unlock]

/-- Mutex events performed by `Worker.Terminate`: `Lock` then the deferred
`Unlock` at return. -/
def Terminate_mux : List MuxEv := [.lock, .unlock]

/-- Mutex events performed by `Worker.LoadScript`: `Lock`, then an explicit
`Unlock` before the native call; no early return between them. -/
def LoadScript_mux : List MuxEv := [.lock, .unlock]

/-- Mutex events performed by `Worker.LoadModule` on each return path:
after `Lock` and `init`, the nil-resolver path returns early, before the
explicit `Unlock` is reached; the other path unlocks. -/
def LoadModule_mux (resolverSet : Bool) : List MuxEv :=
  if resolverSet then [.lock, .unlock] else [.lock]

end V8

namespace V8Worker

/-- `recvCb` from the Go `v8worker` package (worker.go): invokes
`getWorker(id).cb` unconditionally, so a nil callback is a nil function
invocation — an unrecoverable panic that aborts the process. -/
def recvCb (cb : Option (String → Unit)) (msg : String) : V8.DispatchResult :=
  match cb with
  | none => .crash
  | some f =>
    let _u := f msg
    .ok true

/-- `recvSyncCb` from the Go `v8worker` package (worker.go): invokes
`getWorker(id).syncCb` unconditionally, so a nil callback aborts the
process. -/
def recvSyncCb (syncCb : Option (String → String)) (msg : String) :
    V8.SyncDispatchResult :=
  match syncCb with
  | none => .crash
  | some f => .str (f msg)

/-- `Instance.Send` from the Go `v8worker` package: calls `worker_send`
and, when the status is nonzero, returns `errors.New` of
`worker_last_exception` — the `last_exception` the call just stored.
Returns the updated C worker, the Go error, and the number of script
callback invocations. -/
def Send (w : Binding.SendWorker) (msg : String) :
    Binding.SendWorker × Option String × Nat :=
  let r := Binding.worker_send w msg
  (r.1, if r.2.1 ≠ 0 then some r.1.last_exception else none, r.2.2)

end V8Worker

namespace Registry

/-- One observable event on the process-wide registry shared by the Go
bindings: an instance creation (`Worker.init` / `New`: `nextID++`, insert
into the map, `once.Do(v8_init)`), or the disposal of the instance created
`k`-th (finalizer-driven `dispose`: delete its id from the map).
Instances are named by their creation ordinal (1-based). -/
inductive Event where
  | create
  | dispose (k : Nat)
deriving DecidableEq

/-- The process-wide state behind the package-level variables of the Go
bindings.  `count` is the mathematical number of creations so far, so the
int32 `nextID` equals `wrap32 count`; `reg` is the registry map; `ids` is
the history of assigned ids, newest first; `onceDone` and `boot` model
`sync.Once` and the number of `v8_init` executions. -/
structure RegState where
  count : Nat
  reg : List (Int × Nat)
  disposed : List Nat
  ids : List Int
  onceDone : Bool
  boot : Nat

/-- Map lookup on the association list (Go `registry[id]`, nil when
absent). -/
def lookupA (i : Int) : List (Int × Nat) → Option Nat
  | [] => none
  | (j, v) :: l => if j = i then some v else lookupA i l

/-- Map deletion (Go `delete(registry, id)`). -/
def eraseA (i : Int) : List (Int × Nat) → List (Int × Nat)
  | [] => []
  | (j, v) :: l => if j = i then eraseA i l else (j, v) :: eraseA i l

/-- Map insertion with overwrite (Go `registry[id] = inst`). -/
def insertA (i : Int) (v : Nat) (l : List (Int × Nat)) : List (Int × Nat) :=
  (i, v) :: eraseA i l

/-- `Worker.init` / `New`: increment `nextID` (an int32, hence the wrap),
store the instance under the new id, and run `v8_init` through
`once.Do`. -/
def stepCreate (s : RegState) : RegState :=
  { count := s.count + 1
    reg := insertA (wrap32 ((s.count + 1 : Nat) : Int)) (s.count + 1) s.reg
    disposed := s.disposed
    ids := wrap32 ((s.count + 1 : Nat) : Int) :: s.ids
    onceDone := true
    boot := if s.onceDone then s.boot else s.boot + 1 }

/-- `dispose`: delete the id assigned at creation `k` from the registry
(then release the native resource, which the registry does not see). -/
def stepDispose (k : Nat) (s : RegState) : RegState :=
  { s with
    reg := eraseA (wrap32 (k : Int)) s.reg
    disposed := k :: s.disposed }

/-- Step of the registry state machine. -/
def step : Event → RegState → RegState
  | .create, s => stepCreate s
  | .dispose k, s => stepDispose k s

/-- Run a trace of events. -/
def run : List Event → RegState → RegState
  | [], s => s
  | e :: t, s => run t (step e s)

/-- Whether an event can occur in a state: creations always can; the
finalizer disposes only an instance that exists and runs once per
instance. -/
def okEvent : Event → RegState → Bool
  | .create, _ => true
  | .dispose k, s =>
    decide (1 ≤ k) && decide (k ≤ s.count) && decide (k ∉ s.disposed)

/-- Whether a whole trace of events can occur. -/
def okTrace : List Event → RegState → Bool
  | [], _ => true
  | e :: t, s => okEvent e s && okTrace t (step e s)

/-- The state at process start: `nextID = 0`, empty registry, `sync.Once`
not yet fired. -/
def initState : RegState :=
  { count := 0, reg := [], disposed := [], ids := [], onceDone := false, boot := 0 }

/-- Instance `k` is live: it has been created and not yet disposed. -/
def live (s : RegState) (k : Nat) : Prop :=
  1 ≤ k ∧ k ≤ s.count ∧ k ∉ s.disposed

/-- The registry invariant claimed by the spec: looking up the id assigned
to instance `k` returns that instance exactly when it is live. -/
def registryInvariant (s : RegState) : Prop :=
  ∀ k : Nat, lookupA (wrap32 k) s.reg = some k ↔ live s k

/-- Full characterization of the registry map: an entry `i ↦ k` exists
exactly when `i` is the id of the live instance `k`. -/
def InvR (s : RegState) : Prop :=
  ∀ (i : Int) (k : Nat), lookupA i s.reg = some k ↔ (i = wrap32 k ∧ live s k)

/-- Every disposed ordinal denotes an instance that was created. -/
def disposedOK (s : RegState) : Prop :=
  ∀ d ∈ s.disposed, 1 ≤ d ∧ d ≤ s.count

/-- `n` repetitions of create-then-dispose starting at ordinal `k`:
each iteration creates a worker and lets its finalizer reclaim it. -/
def churnFrom : Nat → Nat → List Event
  | _, 0 => []
  | k, n + 1 => .create :: .dispose k :: churnFrom (k + 1) n

/-- A trace that wraps the int32 id counter: create one long-lived worker,
churn through 4294967295 short-lived workers, then create one more, whose
id collides with the first one. -/
def badTrace : List Event :=
  [.create] ++ churnFrom 2 4294967295 ++ [.create]

/-- The registry state after the first creation of `badTrace`. -/
def firstState : RegState :=
  { count := 1, reg := [(1, 1)], disposed := [], ids := [1],
    onceDone := true, boot := 1 }

/-- The registry state reached by `badTrace` just before its final
creation: instance 1 still registered, the id counter exhausted. -/
def wrappedState : RegState :=
  { count := 4294967296
    reg := [(1, 1)]
    disposed := (List.range' 2 4294967295).reverse
    ids := (List.range' 2 4294967295).reverse.map (fun j : Nat => wrap32 j) ++ [1]
    onceDone := true
    boot := 1 }

end Registry

/-- A concrete worker whose lazy instance has not been created, used to
evaluate `Terminate` on the uninitialized path. -/
def sampleWorker : V8.Worker :=
  { inst := none
    enablePrint := false
    getModSource := none
    handleSend := none
    handleSendSync := none
    resolveModURL := none }

/-- A concrete C worker with no `$recv` callback and a stale
`last_exception` left over from an unrelated prior call. -/
def sampleSendWorker : Binding.SendWorker :=
  { recv := none, last_exception := "stale failure from an unrelated prior call" }

/-! ### Helper lemmas -/

theorem wrap32_inj {a b : Nat} (ha1 : 1 ≤ a) (ha2 : a ≤ 4294967296)
    (hb1 : 1 ≤ b) (hb2 : b ≤ 4294967296) (h : wrap32 a = wrap32 b) : a = b := by
  unfold wrap32 at h
  omega

theorem wrap32_eq_self {k : Nat} (h : k ≤ 2147483647) : wrap32 k = k := by
  unfold wrap32
  omega

namespace Registry

theorem run_append (t1 t2 : List Event) (s : RegState) :
    run (t1 ++ t2) s = run t2 (run t1 s) := by
  induction t1 generalizing s with
  | nil => rfl
  | cons e t ih => simpa [run] using ih (step e s)

theorem okTrace_append (t1 t2 : List Event) (s : RegState) :
    okTrace (t1 ++ t2) s = (okTrace t1 s && okTrace t2 (run t1 s)) := by
  induction t1 generalizing s with
  | nil => simp [okTrace, run]
  | cons e t ih => simp [okTrace, run, ih, Bool.and_assoc]

theorem count_step (e : Event) (s : RegState) : s.count ≤ (step e s).count := by
  cases e with
  | create => exact Nat.le_succ _
  | dispose k => exact Nat.le_refl _

theorem count_run (t : List Event) (s : RegState) : s.count ≤ (run t s).count := by
  induction t generalizing s with
  | nil => exact Nat.le_refl _
  | cons e t ih => exact Nat.le_trans (count_step e s) (ih (step e s))

theorem lookupA_eraseA (i j : Int) (l : List (Int × Nat)) :
    lookupA i (eraseA j l) = if i = j then none else lookupA i l := by
  induction l with
  | nil => simp [eraseA, lookupA]
  | cons p l ih =>
    obtain ⟨a, v⟩ := p
    by_cases haj : a = j <;> by_cases hai : a = i <;> by_cases hij : i = j <;>
      simp_all [eraseA, lookupA]

theorem lookupA_insertA (i j : Int) (v : Nat) (l : List (Int × Nat)) :
    lookupA i (insertA j v l) = if i = j then some v else lookupA i l := by
  unfold insertA
  show (if j = i then some v else lookupA i (eraseA j l)) = _
  by_cases h : i = j
  · rw [if_pos h.symm, if_pos h]
  · rw [if_neg (fun hh : j = i => h hh.symm), if_neg h, lookupA_eraseA, if_neg h]

theorem eraseA_of_lookup_none (i : Int) (l : List (Int × Nat))
    (h : lookupA i l = none) : eraseA i l = l := by
  induction l with
  | nil => rfl
  | cons p l ih =>
    obtain ⟨a, v⟩ := p
    by_cases ha : a = i
    · simp [lookupA, ha] at h
    · simp only [lookupA, if_neg ha] at h
      simp [eraseA, ha, ih h]

theorem live_stepCreate (s : RegState) (k : Nat) :
    live (stepCreate s) k ↔ (1 ≤ k ∧ k ≤ s.count + 1 ∧ k ∉ s.disposed) := by
  simp [live, stepCreate]

theorem live_stepDispose (s : RegState) (k0 k : Nat) :
    live (stepDispose k0 s) k ↔ (1 ≤ k ∧ k ≤ s.count ∧ k ∉ k0 :: s.disposed) := by
  simp [live, stepDispose]

theorem inv_create {s : RegState} (h32 : s.count + 1 ≤ 4294967296)
    (h1 : InvR s) (h2 : disposedOK s) :
    InvR (stepCreate s) ∧ disposedOK (stepCreate s) := by
  constructor
  · intro i k
    show lookupA i (insertA (wrap32 ((s.count + 1 : Nat) : Int)) (s.count + 1) s.reg)
      = some k ↔ _
    rw [lookupA_insertA, live_stepCreate]
    by_cases hi : i = wrap32 ((s.count + 1 : Nat) : Int)
    · rw [if_pos hi]
      constructor
      · intro h
        have hk : s.count + 1 = k := by injection h
        subst hk
        refine ⟨hi, by omega, by omega, fun hmem => ?_⟩
        have := h2 _ hmem
        omega
      · rintro ⟨hw, hk1, hk2, hk3⟩
        have : s.count + 1 = k := wrap32_inj (by omega) h32 hk1 (by omega) (hi.symm.trans hw)
        rw [this]
    · rw [if_neg hi]
      rw [h1 i k]
      unfold live
      constructor
      · rintro ⟨hw, hk1, hk2, hk3⟩
        exact ⟨hw, hk1, by omega, hk3⟩
      · rintro ⟨hw, hk1, hk2, hk3⟩
        have hne : k ≠ s.count + 1 := fun h => hi (h ▸ hw)
        exact ⟨hw, hk1, by omega, hk3⟩
  · intro d hd
    have hmem : d ∈ s.disposed := hd
    have := h2 d hmem
    show 1 ≤ d ∧ d ≤ s.count + 1
    omega

theorem inv_dispose {s : RegState} {k0 : Nat} (hk1 : 1 ≤ k0) (hk2 : k0 ≤ s.count)
    (hkd : k0 ∉ s.disposed) (h32 : s.count ≤ 4294967296)
    (h1 : InvR s) (h2 : disposedOK s) :
    InvR (stepDispose k0 s) ∧ disposedOK (stepDispose k0 s) := by
  constructor
  · intro i k
    show lookupA i (eraseA (wrap32 (k0 : Int)) s.reg) = some k ↔ _
    rw [lookupA_eraseA, live_stepDispose]
    by_cases hi : i = wrap32 (k0 : Int)
    · rw [if_pos hi]
      constructor
      · intro h
        exact absurd h (by simp)
      · rintro ⟨hw, hl1, hl2, hl3⟩
        obtain rfl : k0 = k := wrap32_inj hk1 (by omega) hl1 (by omega) (hi.symm.trans hw)
        exact absurd (List.mem_cons_self k0 s.disposed) hl3
    · rw [if_neg hi]
      rw [h1 i k]
      unfold live
      constructor
      · rintro ⟨hw, hl1, hl2, hl3⟩
        have hne : k ≠ k0 := fun h => hi (h ▸ hw)
        refine ⟨hw, hl1, hl2, ?_⟩
        intro hmem
        rcases List.mem_cons.mp hmem with h | h
        · exact hne h
        · exact hl3 h
      · rintro ⟨hw, hl1, hl2, hl3⟩
        exact ⟨hw, hl1, hl2, fun hmem => hl3 (List.mem_cons_of_mem _ hmem)⟩
  · intro d hd
    rcases List.mem_cons.mp hd with h | h
    · subst h
      exact ⟨hk1, hk2⟩
    · exact h2 d h

theorem inv_run : ∀ (t : List Event) (s : RegState), okTrace t s = true →
    (run t s).count ≤ 4294967296 → InvR s → disposedOK s →
    InvR (run t s) ∧ disposedOK (run t s) := by
  intro t
  induction t with
  | nil => exact fun s _ _ h1 h2 => ⟨h1, h2⟩
  | cons e t ih =>
    intro s hok hcount h1 h2
    simp only [okTrace, Bool.and_eq_true] at hok
    obtain ⟨he, ht⟩ := hok
    have hcount2 : (run t (step e s)).count ≤ 4294967296 := hcount
    have hbound : (step e s).count ≤ 4294967296 :=
      Nat.le_trans (count_run t (step e s)) hcount2
    cases e with
    | create =>
      obtain ⟨h1c, h2c⟩ := inv_create hbound h1 h2
      exact ih (stepCreate s) ht hcount2 h1c h2c
    | dispose k =>
      simp only [okEvent, Bool.and_eq_true, decide_eq_true_eq] at he
      obtain ⟨⟨hek1, hek2⟩, hek3⟩ := he
      obtain ⟨h1d, h2d⟩ := inv_dispose hek1 hek2 hek3 hbound h1 h2
      exact ih (stepDispose k s) ht hcount2 h1d h2d

theorem ok_creates (n : Nat) : ∀ s : RegState,
    okTrace (List.replicate n Event.create) s = true := by
  induction n with
  | zero => intro s; rfl
  | succ n ih =>
    intro s
    rw [List.replicate_succ]
    show (okEvent .create s && okTrace (List.replicate n Event.create) (step .create s)) = true
    simp [okEvent, ih]

theorem count_createN (n : Nat) : ∀ s : RegState,
    (run (List.replicate n Event.create) s).count = s.count + n := by
  induction n with
  | zero => intro s; rfl
  | succ n ih =>
    intro s
    rw [List.replicate_succ]
    show (run (List.replicate n Event.create) (step .create s)).count = s.count + (n + 1)
    rw [ih]
    show s.count + 1 + n = s.count + (n + 1)
    omega

theorem ids_run (t : List Event) : ∀ s : RegState,
    (run t s).ids =
      ((List.range' (s.count + 1) ((run t s).count - s.count)).reverse.map
        fun j : Nat => wrap32 j) ++ s.ids := by
  induction t with
  | nil => intro s; simp [run]
  | cons e t ih =>
    intro s
    cases e with
    | dispose k => exact ih (stepDispose k s)
    | create =>
      show (run t (stepCreate s)).ids = _
      rw [ih (stepCreate s)]
      have hge : s.count + 1 ≤ (run t (stepCreate s)).count :=
        count_run t (stepCreate s)
      have h1 : (run t (stepCreate s)).count - s.count =
          ((run t (stepCreate s)).count - (s.count + 1)) + 1 := by omega
      show _ = (List.range' (s.count + 1) ((run t (stepCreate s)).count - s.count)).reverse.map
          (fun j : Nat => wrap32 j) ++ s.ids
      rw [h1, List.range'_succ]
      simp [List.reverse_cons, stepCreate]

theorem boot_invariant (t : List Event) : ∀ s : RegState,
    (s.boot = if s.count = 0 then 0 else 1) → (s.onceDone = decide (s.count ≠ 0)) →
    ((run t s).boot = if (run t s).count = 0 then 0 else 1) ∧
    ((run t s).onceDone = decide ((run t s).count ≠ 0)) := by
  induction t with
  | nil => exact fun s h1 h2 => ⟨h1, h2⟩
  | cons e t ih =>
    intro s h1 h2
    cases e with
    | create =>
      apply ih
      · show (if s.onceDone then s.boot else s.boot + 1) = if s.count + 1 = 0 then 0 else 1
        rcases Nat.eq_zero_or_pos s.count with hz | hp
        · simp [hz] at h1 h2
          simp [h1, h2]
        · have : s.count ≠ 0 := by omega
          simp [this] at h1 h2
          simp [h1, h2]
      · show (true : Bool) = decide (s.count + 1 ≠ 0)
        simp
    | dispose k => exact ih (stepDispose k s) h1 h2

theorem eraseA_insertA_self (i : Int) (v : Nat) (l : List (Int × Nat))
    (h : lookupA i l = none) : eraseA i (insertA i v l) = l := by
  unfold insertA
  show (if i = i then eraseA i (eraseA i l) else (i, v) :: eraseA i (eraseA i l)) = l
  rw [if_pos rfl, eraseA_of_lookup_none _ _ h, eraseA_of_lookup_none _ _ h]

theorem churn_step (k : Nat) (s : RegState) (hk : 1 ≤ k) (hc : s.count = k - 1)
    (ho : s.onceDone = true) (hr : lookupA (wrap32 (k : Int)) s.reg = none) :
    stepDispose k (stepCreate s) =
      { count := k, reg := s.reg, disposed := k :: s.disposed,
        ids := wrap32 (k : Int) :: s.ids, onceDone := true, boot := s.boot } := by
  have hsc : s.count + 1 = k := by omega
  unfold stepDispose stepCreate
  rw [ho]
  simp only [if_true, hsc]
  rw [eraseA_insertA_self _ _ _ hr]

theorem churn_run (n : Nat) : ∀ (k : Nat) (s : RegState), 1 ≤ k → s.count = k - 1 →
    s.onceDone = true →
    (∀ j, k ≤ j → j < k + n → lookupA (wrap32 (j : Int)) s.reg = none) →
    run (churnFrom k n) s =
      { count := s.count + n
        reg := s.reg
        disposed := (List.range' k n).reverse ++ s.disposed
        ids := (List.range' k n).reverse.map (fun j : Nat => wrap32 j) ++ s.ids
        onceDone := true
        boot := s.boot } := by
  induction n with
  | zero =>
    intro k s hk hc ho hr
    show s = _
    cases s
    simp_all [List.range']
  | succ n ih =>
    intro k s hk hc ho hr
    show run (churnFrom (k + 1) n) (stepDispose k (stepCreate s)) = _
    rw [churn_step k s hk hc ho (hr k (Nat.le_refl k) (by omega))]
    rw [ih (k + 1)
      { count := k, reg := s.reg, disposed := k :: s.disposed,
        ids := wrap32 (k : Int) :: s.ids, onceDone := true, boot := s.boot }
      (by omega) (by simp) rfl
      (fun j hj1 hj2 => hr j (by omega) (by omega))]
    rw [List.range'_succ]
    simp only [RegState.mk.injEq, List.reverse_cons, List.map_append, List.map_cons,
      List.map_nil, List.append_assoc, List.singleton_append, List.cons_append,
      List.nil_append, and_true, true_and]
    omega

theorem churn_ok (n : Nat) : ∀ (k : Nat) (s : RegState), 1 ≤ k → s.count = k - 1 →
    s.onceDone = true →
    (∀ j, k ≤ j → j < k + n → lookupA (wrap32 (j : Int)) s.reg = none) →
    (∀ j, k ≤ j → j < k + n → j ∉ s.disposed) →
    okTrace (churnFrom k n) s = true := by
  induction n with
  | zero => intro k s _ _ _ _ _; rfl
  | succ n ih =>
    intro k s hk hc ho hr hd
    show (okEvent .create s &&
      (okEvent (.dispose k) (stepCreate s) &&
        okTrace (churnFrom (k + 1) n) (stepDispose k (stepCreate s)))) = true
    have hok2 : okEvent (.dispose k) (stepCreate s) = true := by
      simp only [okEvent, Bool.and_eq_true, decide_eq_true_eq]
      refine ⟨⟨hk, ?_⟩, ?_⟩
      · show k ≤ s.count + 1
        omega
      · show k ∉ s.disposed
        exact hd k (Nat.le_refl k) (by omega)
    have hok3 : okTrace (churnFrom (k + 1) n) (stepDispose k (stepCreate s)) = true := by
      rw [churn_step k s hk hc ho (hr k (Nat.le_refl k) (by omega))]
      refine ih (k + 1) _ (by omega) (by simp) rfl ?_ ?_
      · intro j hj1 hj2
        exact hr j (by omega) (by omega)
      · intro j hj1 hj2
        show j ∉ k :: s.disposed
        intro hmem
        rcases List.mem_cons.mp hmem with h | h
        · omega
        · exact hd j (by omega) (by omega) h
    rw [hok2, hok3]
    rfl

end Registry

/-! ### Claim theorems -/

/-- C2: for every message, `send_sync` returns a string to its caller and
never an error: with no registered script-side sync callback it returns the
fixed diagnostic string, and when the callback returns a non-string value
it returns the fixed non-string diagnostic instead of a type error. -/
theorem send_sync_total :
    (∀ (handler : Option (String → Binding.JSVal)) (msg : String),
      (V8.SendSync handler msg).2 = none) ∧
    (∀ msg : String,
      (V8.SendSync none msg).1 = "v8worker: callback not registered with $recvSync") ∧
    (∀ (f : String → Binding.JSVal) (msg : String), f msg = .nonstr →
      (V8.SendSync (some f) msg).1 = "v8worker: non-string return value") := by
  refine ⟨fun handler msg => rfl, fun msg => rfl, fun f msg h => ?_⟩
  simp [V8.SendSync, Binding.worker_send_sync, h]

theorem send_sync_total_witness :
    (V8.SendSync (some fun _ => Binding.JSVal.nonstr) "ping").1 =
      "v8worker: non-string return value" :=
  send_sync_total.2.2 (fun _ => Binding.JSVal.nonstr) "ping" rfl

/-- C3: calling `Send` on an instance whose script-side receive callback is
not registered returns the callback-not-registered error without invoking
any script code, and the reported error is the `last_exception` stored by
this very failure, not a stale value from a prior call. -/
theorem send_callback_not_registered :
    ∀ (w : Binding.SendWorker) (msg : String), w.recv = none →
      V8Worker.Send w msg =
        ({ w with last_exception := "v8worker: callback not registered with $recv" },
          some "v8worker: callback not registered with $recv", 0) := by
  intro w msg h
  simp [V8Worker.Send, Binding.worker_send, h]

theorem send_callback_not_registered_witness :
    V8Worker.Send sampleSendWorker "ping" =
      ({ recv := none, last_exception := "v8worker: callback not registered with $recv" },
        some "v8worker: callback not registered with $recv", 0) :=
  send_callback_not_registered sampleSendWorker "ping" rfl

/-- C6: the Exception Formatter produces, when location metadata is
available, `resource-name:line-number`, then the offending source line,
then a caret underline covering exactly the reported start to end columns,
then the stack trace (or the exception message again when no stack trace
is available); with no location metadata, just the exception message
(followed by the final newline in both shapes); and loading source `"1+"`
under name `"test.js"` yields a compile error (status 1) whose formatted
message contains `"test.js:1"` and a caret marker. -/
theorem exception_format :
    (∀ e : Binding.ExcData, Binding.ExceptionString e = Binding.ExceptionFormatSpec e) ∧
    (Binding.worker_load { last_exception := "" }
      (.compileFail Binding.onePlusFailure)).2 = 1 ∧
    "test.js:1".data <:+:
      (Binding.worker_load { last_exception := "" }
        (.compileFail Binding.onePlusFailure)).1.last_exception.data ∧
    "^".data <:+:
      (Binding.worker_load { last_exception := "" }
        (.compileFail Binding.onePlusFailure)).1.last_exception.data := by
  refine ⟨fun e => ?_, rfl, by decide, by decide⟩
  unfold Binding.ExceptionString Binding.ExceptionFormatSpec
  cases e.message with
  | none => rfl
  | some m =>
    by_cases h : e.stackTrace.length > 0 <;>
      simp [h, String.append_assoc]

/-- C7: with no module-source resolver configured, `LoadModule` returns an
error result; but when resolution of the url fails, the `getModuleSource`
cgo export panics instead of returning an error, aborting the process —
evaluation of the model at that failing input. -/
theorem load_module_resolution_failure :
    (V8.LoadModule none "mod.js" [] none).1 =
      .err "v8: GetModuleSource needs to be set before any methods are called" ∧
    V8.getModuleSource (fun _ => .error "module not found") "mod.js" = .crash ∧
    (V8.LoadModule (some fun _ => .error "module not found") "mod.js" [] none).1 =
      .crash :=
  ⟨rfl, rfl, rfl⟩

/-- C8: evaluation of the dispatch callbacks with the host handler unset:
the `v8worker` package (worker.go) invokes the nil callback and crashes for
both the async and the sync path, while the `v8` package returns without
invoking anything on the async path and hands the fixed diagnostic string
back to the script on the sync path. -/
theorem recv_callback_nil_dispatch :
    V8Worker.recvCb none "ping" = .crash ∧
    V8Worker.recvSyncCb none "ping" = .crash ∧
    V8.recvCb none "ping" = .ok false ∧
    V8.recvSyncCb none "ping" = .str "v8: Worker.HandleSendSync is nil" :=
  ⟨rfl, rfl, rfl, rfl⟩

/-- C9: evaluation of the per-handle mutex discipline: `LoadModule` on the
nil-resolver path returns with the mutex still held (one unmatched lock),
while its other path and `Send`, `SendSync`, `Terminate` and `LoadScript`
all release the mutex on every return path. -/
theorem load_module_mutex_leak :
    V8.mutexBalanced (V8.LoadModule_mux false) = false ∧
    V8.mutexBalanced (V8.LoadModule_mux true) = true ∧
    V8.mutexBalanced V8.Send_mux = true ∧
    V8.mutexBalanced V8.SendSync_mux = true ∧
    V8.mutexBalanced V8.Terminate_mux = true ∧
    V8.mutexBalanced V8.LoadScript_mux = true ∧
    (V8.LoadModule none "mod.js" [] none).2 = 1 := by
  refine ⟨by decide, by decide, by decide, by decide, by decide, by decide, rfl⟩

/-- C10: `Terminate` on a worker whose engine instance has not yet been
lazily created returns without creating an instance, without calling into
the native engine, and with the worker unchanged. -/
theorem terminate_uninitialized :
    ∀ w : V8.Worker, w.inst = none → V8.Terminate w = (w, false) := by
  intro w h
  unfold V8.Terminate
  rw [h]

theorem terminate_uninitialized_witness :
    V8.Terminate sampleWorker = (sampleWorker, false) :=
  terminate_uninitialized sampleWorker rfl

/-- C5: the global engine bootstrap `v8_init` runs exactly once per process:
along every order of creations and disposals it has run zero times when no
instance was ever created and exactly once otherwise; in particular after
any trace extended by one more creation it has run exactly once, so the
bootstrap happens on the first creation and never again. -/
theorem v8_init_once :
    ∀ t : List Registry.Event,
      ((Registry.run t Registry.initState).boot =
        if (Registry.run t Registry.initState).count = 0 then 0 else 1) ∧
      (Registry.run (t ++ [Registry.Event.create]) Registry.initState).boot = 1 := by
  intro t
  have h := Registry.boot_invariant t Registry.initState rfl rfl
  refine ⟨h.1, ?_⟩
  have h2 := Registry.boot_invariant (t ++ [Registry.Event.create])
    Registry.initState rfl rfl
  have hc : (Registry.run (t ++ [Registry.Event.create]) Registry.initState).count =
      (Registry.run t Registry.initState).count + 1 := by
    rw [Registry.run_append]
    rfl
  rw [h2.1, hc]
  simp

/-- C4: counterexample to the strictly-increasing, never-reused id claim at
the concrete trace of 2147483648 consecutive creations: the trace is valid,
but the id assigned by the 2147483648-th creation is the int32 minimum,
smaller than the id assigned just before it, so the assigned ids are not
strictly increasing and the claimed conjunction fails. -/
theorem registry_ids_counterexample :
    Registry.okTrace (List.replicate 2147483648 Registry.Event.create)
      Registry.initState = true ∧
    ¬ (((Registry.run (List.replicate 2147483648 Registry.Event.create)
          Registry.initState).ids.Pairwise (· > ·)) ∧
        (Registry.run (List.replicate 2147483648 Registry.Event.create)
          Registry.initState).ids.Nodup) := by
  refine ⟨Registry.ok_creates _ _, ?_⟩
  rintro ⟨hmono, -⟩
  have hsplit : List.replicate 2147483648 Registry.Event.create =
      List.replicate 2147483646 Registry.Event.create ++
        List.replicate 2 Registry.Event.create := by
    rw [← List.replicate_add]
  rw [hsplit, Registry.run_append] at hmono
  have hcount : (Registry.run (List.replicate 2147483646 Registry.Event.create)
      Registry.initState).count = 2147483646 := by
    rw [Registry.count_createN]
    simp [Registry.initState]
  set s := Registry.run (List.replicate 2147483646 Registry.Event.create)
    Registry.initState with hs
  have hrun2 : Registry.run (List.replicate 2 Registry.Event.create) s =
      Registry.stepCreate (Registry.stepCreate s) := rfl
  rw [hrun2] at hmono
  have hids : (Registry.stepCreate (Registry.stepCreate s)).ids =
      wrap32 ((2147483648 : Nat) : Int) :: wrap32 ((2147483647 : Nat) : Int) ::
        s.ids := by
    show wrap32 ((s.count + 1 + 1 : Nat) : Int) ::
      wrap32 ((s.count + 1 : Nat) : Int) :: s.ids = _
    rw [hcount]
  rw [hids] at hmono
  have h12 := (List.pairwise_cons.mp hmono).1 _ (List.mem_cons_self _ _)
  unfold wrap32 at h12
  omega

/-- C4: amended id-freshness claim: the ids assigned at registration
strictly increase as long as the process performs at most 2147483647
creations, and no id is assigned twice as long as it performs at most
4294967296 creations; `nextID` is a Go int32, so it wraps at the
2147483648-th creation. -/
theorem registry_ids_monotone :
    ∀ t : List Registry.Event,
      ((Registry.run t Registry.initState).count ≤ 2147483647 →
        (Registry.run t Registry.initState).ids.Pairwise (· > ·)) ∧
      ((Registry.run t Registry.initState).count ≤ 4294967296 →
        (Registry.run t Registry.initState).ids.Nodup) := by
  intro t
  have hids := Registry.ids_run t Registry.initState
  have h0c : Registry.initState.count = 0 := rfl
  have h0i : Registry.initState.ids = [] := rfl
  rw [h0c, h0i] at hids
  simp only [Nat.zero_add, Nat.sub_zero, List.append_nil] at hids
  constructor
  · intro hC
    rw [hids]
    refine List.pairwise_map.mpr ?_
    refine List.pairwise_reverse.mpr ?_
    have hp := List.pairwise_lt_range' 1 (Registry.run t Registry.initState).count
    refine hp.imp_of_mem ?_
    intro a b ha hb hab
    rw [List.mem_range'_1] at ha hb
    show wrap32 (b : Int) > wrap32 (a : Int)
    rw [wrap32_eq_self (by omega), wrap32_eq_self (by omega)]
    exact_mod_cast hab
  · intro hC
    rw [hids]
    show List.Pairwise (fun a b => a ≠ b) _
    refine List.pairwise_map.mpr ?_
    refine List.pairwise_reverse.mpr ?_
    have hp := List.pairwise_lt_range' 1 (Registry.run t Registry.initState).count
    refine hp.imp_of_mem ?_
    intro a b ha hb hab
    rw [List.mem_range'_1] at ha hb
    intro heq
    have : b = a := wrap32_inj (by omega) (by omega) (by omega) (by omega) heq
    omega

theorem registry_ids_monotone_witness :
    (Registry.run [Registry.Event.create, Registry.Event.create]
      Registry.initState).ids.Pairwise (· > ·) ∧
    (Registry.run [Registry.Event.create, Registry.Event.create]
      Registry.initState).ids.Nodup :=
  ⟨(registry_ids_monotone [Registry.Event.create, Registry.Event.create]).1 (by decide),
    (registry_ids_monotone [Registry.Event.create, Registry.Event.create]).2 (by decide)⟩

/-- C1: amended registry-lookup invariant: along every valid trace in which
the process performs at most 4294967296 instance creations, looking up the
id of instance `k` returns `k` exactly when `k` has been created and not
yet disposed, and the id of every disposed instance is absent from the
registry (so immediately after `dispose` the lookup reports missing).
Beyond that bound the int32 id counter wraps and the invariant fails, see
the counterexample. -/
theorem registry_lookup_iff_live :
    ∀ t : List Registry.Event, Registry.okTrace t Registry.initState = true →
      (Registry.run t Registry.initState).count ≤ 4294967296 →
      Registry.registryInvariant (Registry.run t Registry.initState) ∧
      ∀ k, k ∈ (Registry.run t Registry.initState).disposed →
        Registry.lookupA (wrap32 (k : Int))
          (Registry.run t Registry.initState).reg = none := by
  intro t hok hc
  have h0 : Registry.InvR Registry.initState := by
    intro i k
    constructor
    · intro h
      exact absurd h (by simp [Registry.initState, Registry.lookupA])
    · rintro ⟨hw, h1, h2, h3⟩
      have h2z : k ≤ 0 := h2
      exact absurd (h1.trans h2z) (by decide)
  have hd0 : Registry.disposedOK Registry.initState := by
    intro d hd
    exact absurd hd (by simp [Registry.initState])
  obtain ⟨hI, hD⟩ := Registry.inv_run t Registry.initState hok hc h0 hd0
  constructor
  · intro k
    constructor
    · intro h
      exact ((hI _ k).mp h).2
    · intro h
      exact (hI _ k).mpr ⟨rfl, h⟩
  · intro k hk
    cases hl : Registry.lookupA (wrap32 (k : Int))
        (Registry.run t Registry.initState).reg with
    | none => rfl
    | some k2 =>
      obtain ⟨hw, hlive⟩ := (hI _ k2).mp hl
      have hl1 : 1 ≤ k2 := hlive.1
      have hl2 : k2 ≤ (Registry.run t Registry.initState).count := hlive.2.1
      have hl3 : k2 ∉ (Registry.run t Registry.initState).disposed := hlive.2.2
      have hb := hD k hk
      obtain rfl : k = k2 := wrap32_inj hb.1 (by omega) hl1 (by omega) hw
      exact absurd hk hl3

theorem registry_lookup_iff_live_witness :
    Registry.registryInvariant
      (Registry.run [Registry.Event.create, Registry.Event.create,
        Registry.Event.dispose 1] Registry.initState) ∧
    ∀ k, k ∈ (Registry.run [Registry.Event.create, Registry.Event.create,
        Registry.Event.dispose 1] Registry.initState).disposed →
      Registry.lookupA (wrap32 (k : Int))
        (Registry.run [Registry.Event.create, Registry.Event.create,
          Registry.Event.dispose 1] Registry.initState).reg = none :=
  registry_lookup_iff_live
    [Registry.Event.create, Registry.Event.create, Registry.Event.dispose 1]
    (by decide) (by decide)

/-- C1: counterexample to the unconditional lookup-iff-live claim: a valid
trace that creates one long-lived instance, churns through 4294967295
create-dispose pairs until the int32 id counter wraps, and then creates one
more instance, which is assigned id 1 again and overwrites the registry
entry of the still-live first instance.  Instance 1 is created and not
disposed, yet looking up its id no longer returns it. -/
theorem registry_lookup_counterexample :
    Registry.okTrace Registry.badTrace Registry.initState = true ∧
    ¬ Registry.registryInvariant (Registry.run Registry.badTrace Registry.initState) := by
  have hs1 : Registry.step Registry.Event.create Registry.initState =
      Registry.firstState := by
    show Registry.stepCreate Registry.initState = _
    unfold Registry.stepCreate Registry.initState Registry.insertA Registry.eraseA
      Registry.firstState
    norm_num [wrap32]
  have hlook : ∀ j : Nat, 2 ≤ j → j < 2 + 4294967295 →
      Registry.lookupA (wrap32 j) Registry.firstState.reg = none := by
    intro j h2 hlt
    have hne : ¬ ((1 : Int) = wrap32 (j : Int)) := by
      unfold wrap32
      omega
    show Registry.lookupA (wrap32 (j : Int)) [((1 : Int), (1 : Nat))] = none
    simp [Registry.lookupA, hne]
  have hdisp : ∀ j : Nat, 2 ≤ j → j < 2 + 4294967295 →
      j ∉ Registry.firstState.disposed := by
    intro j _ _ h
    exact absurd h (by simp [Registry.firstState])
  have hchurn : Registry.run (Registry.churnFrom 2 4294967295) Registry.firstState =
      Registry.wrappedState := by
    rw [Registry.churn_run 4294967295 2 Registry.firstState (by norm_num)
      (by norm_num [Registry.firstState]) rfl hlook]
    unfold Registry.firstState Registry.wrappedState
    norm_num [Registry.RegState.mk.injEq]
  have h01 : Registry.run [Registry.Event.create] Registry.initState =
      Registry.firstState := by
    have hstep : Registry.run [Registry.Event.create] Registry.initState =
        Registry.step Registry.Event.create Registry.initState := rfl
    rw [hstep, hs1]
  have hrun : Registry.run Registry.badTrace Registry.initState =
      Registry.stepCreate Registry.wrappedState := by
    unfold Registry.badTrace
    rw [Registry.run_append, Registry.run_append, h01, hchurn]
    rfl
  constructor
  · show Registry.okTrace Registry.badTrace Registry.initState = true
    unfold Registry.badTrace
    rw [Registry.okTrace_append, Registry.okTrace_append, Registry.run_append,
      h01, hchurn]
    rw [Registry.churn_ok 4294967295 2 Registry.firstState (by norm_num)
      (by norm_num [Registry.firstState]) rfl hlook hdisp]
    rfl
  · intro hinv
    rw [hrun] at hinv
    have hlive : Registry.live (Registry.stepCreate Registry.wrappedState) 1 := by
      unfold Registry.live Registry.stepCreate Registry.wrappedState
      refine ⟨Nat.le_refl 1, by norm_num, ?_⟩
      simp [List.mem_range'_1]
    have h1 := (hinv 1).mpr hlive
    have hwrap : wrap32 (4294967297 : Int) = 1 := by
      unfold wrap32
      norm_num
    have hreg : (Registry.stepCreate Registry.wrappedState).reg =
        [((1 : Int), (4294967297 : Nat))] := by
      unfold Registry.stepCreate Registry.wrappedState
      norm_num [Registry.insertA, Registry.eraseA, hwrap]
    rw [hreg] at h1
    have hw1 : wrap32 (1 : Int) = 1 := by
      unfold wrap32
      norm_num
    simp [Registry.lookupA, hw1, Nat.cast_one] at h1

end EspianSource
